import Mathlib

/-!
Shallow embedding of the numerical core of the jcls-2024-topic-genre-impact
repository: the bootstrap two-sample test (`src/notebooks/src/bootstrap.py`)
and the contingency-table log-likelihood keyness statistic
(`src/notebooks/src/keyness.py`).

Python/numpy floating-point values are idealised as exact rationals extended
with the IEEE special values `+inf`, `-inf` and `nan` (type `PyF`): finite
arithmetic is exact, while the propagation of the special values through
`+`, `*`, `/` and the strict comparisons follows IEEE-754 semantics as
implemented by Python floats and numpy arrays.  The process-wide random
source consumed by `numpy.random.randint` is made explicit as an integer
stream argument.  Fallible Python code (raised exceptions) is embedded as
`Except String`.
-/

/-- Idealised model of a Python/numpy float: an exact rational, `+inf`,
`-inf`, or `nan`. -/
inductive PyF where
  | fin (q : ℚ)
  | posInf
  | negInf
  | nan
deriving DecidableEq

namespace PyF

/-- IEEE addition on the idealised floats: finite addition is exact, an
infinity absorbs finite terms, opposite infinities and any `nan` operand
give `nan`. -/
def add : PyF → PyF → PyF
  | fin a, fin b => fin (a + b)
  | fin _, posInf => posInf
  | fin _, negInf => negInf
  | posInf, fin _ => posInf
  | negInf, fin _ => negInf
  | posInf, posInf => posInf
  | negInf, negInf => negInf
  | posInf, negInf => nan
  | negInf, posInf => nan
  | nan, _ => nan
  | _, nan => nan

/-- IEEE multiplication: finite multiplication is exact, an infinity times a
nonzero finite value is a signed infinity, zero times an infinity is `nan`,
and `nan` is absorbing. -/
def mul : PyF → PyF → PyF
  | fin a, fin b => fin (a * b)
  | fin a, posInf => if 0 < a then posInf else if a < 0 then negInf else nan
  | fin a, negInf => if 0 < a then negInf else if a < 0 then posInf else nan
  | posInf, fin b => if 0 < b then posInf else if b < 0 then negInf else nan
  | negInf, fin b => if 0 < b then negInf else if b < 0 then posInf else nan
  | posInf, posInf => posInf
  | posInf, negInf => negInf
  | negInf, posInf => negInf
  | negInf, negInf => posInf
  | nan, _ => nan
  | _, nan => nan

/-- IEEE division (Python float `/`, numpy array division, which warns but
does not raise on a zero denominator): finite division by a nonzero value is
exact; a nonzero finite value divided by zero is a signed infinity and `0/0`
is `nan`; a finite value divided by an infinity is `0`; an infinity divided
by a finite value keeps (or flips) its sign — numpy floats carry a positive
zero here; `inf/inf` and any `nan` operand give `nan`. -/
def div : PyF → PyF → PyF
  | fin a, fin b =>
      if b ≠ 0 then fin (a / b)
      else if 0 < a then posInf else if a < 0 then negInf else nan
  | fin _, posInf => fin 0
  | fin _, negInf => fin 0
  | posInf, fin b => if 0 ≤ b then posInf else negInf
  | negInf, fin b => if 0 ≤ b then negInf else posInf
  | posInf, posInf => nan
  | posInf, negInf => nan
  | negInf, posInf => nan
  | negInf, negInf => nan
  | nan, _ => nan
  | _, nan => nan

/-- IEEE strict less-than as a boolean, the semantics of Python `<`/`>` on
floats: every comparison involving `nan` is false; `-inf` is below every
non-`nan` value other than itself and `+inf` is above. -/
def ltb : PyF → PyF → Bool
  | fin a, fin b => a < b
  | fin _, posInf => true
  | fin _, negInf => false
  | posInf, _ => false
  | negInf, fin _ => true
  | negInf, posInf => true
  | negInf, negInf => false
  | nan, _ => false
  | _, nan => false

/-- Whether the value is finite (neither an infinity nor `nan`). -/
def isFin : PyF → Bool
  | fin _ => true
  | _ => false

instance : Add PyF := ⟨add⟩
instance : Mul PyF := ⟨mul⟩
instance : Div PyF := ⟨div⟩

theorem add_def (x y : PyF) : x + y = add x y := rfl

theorem mul_def (x y : PyF) : x * y = mul x y := rfl

theorem div_def (x y : PyF) : x / y = div x y := rfl

theorem fin_add_fin (a b : ℚ) : fin a + fin b = fin (a + b) := rfl

theorem fin_mul_fin (a b : ℚ) : fin a * fin b = fin (a * b) := rfl

theorem fin_div_fin (a b : ℚ) (hb : b ≠ 0) : fin a / fin b = fin (a / b) := by
  show div (fin a) (fin b) = fin (a / b)
  simp [div, hb]

theorem zero_add_pyf (x : PyF) : fin 0 + x = x := by
  cases x <;> simp [add_def, add]

end PyF

/-! ## Bootstrap test (`src/notebooks/src/bootstrap.py`)

`np.random.randint(0, high, size)` is modelled with an explicit stream
`draws : ℕ → ℕ` of raw random integers: the `k`-th generated index is
`draws k % high`, uniform over `[0, high)` for a uniform stream.  numpy
validates `low < high` before generating — even when `size = 0` — and
raises `ValueError: low >= high` otherwise, so the call fails exactly when
`high = 0`. -/

/-- Model of `np.random.randint(0, high, size)` drawing from the explicit
stream `draws`. -/
def randint (high : ℕ) (size : ℕ) (draws : ℕ → ℕ) : Except String (List ℕ) :=
  if high = 0 then .error "ValueError: low >= high"
  else .ok ((List.range size).map fun k => draws k % high)

/-- Embedding of `resample(sample, resample_length)`: draw
`resample_length` random indices into `sample` and return the elements at
those indices (numpy fancy indexing `sample[resample_index]`). -/
def resample (sample : List ℚ) (resample_length : ℕ) (draws : ℕ → ℕ) :
    Except String (List ℚ) :=
  match randint sample.length resample_length draws with
  | .error e => .error e
  | .ok resample_index => .ok (resample_index.map fun i => sample.getD i 0)

/-- The pure value of a successful `resample` call on a non-empty sample. -/
def resampleList (sample : List ℚ) (resample_length : ℕ) (draws : ℕ → ℕ) :
    List ℚ :=
  (List.range resample_length).map fun k => sample.getD (draws k % sample.length) 0

theorem resample_ok (sample : List ℚ) (n : ℕ) (draws : ℕ → ℕ)
    (h : sample ≠ []) :
    resample sample n draws = .ok (resampleList sample n draws) := by
  have hlen : sample.length ≠ 0 := by
    simpa using List.length_pos.mpr h |>.ne'
  simp [resample, randint, hlen, resampleList, List.map_map, Function.comp]

theorem resample_error (n : ℕ) (draws : ℕ → ℕ) :
    resample [] n draws = .error "ValueError: low >= high" := by
  simp [resample, randint]

/-- The body of one trial of `two_sample_bootstrap_test`, given the two
resampled statistic values `res1` and `res2` (lines 19–26 of
`bootstrap.py`): Python `if res2 > 0.0` / `stat = res1 / res2` /
`sign = 1 if stat > 1.0 else 0`, and in the `else` branch
`stat = np.inf if res1 > 0.0 else 0.0` / `sign = 1 if res1 > 0.0 else 0`. -/
def trialPairOf (res1 res2 : PyF) : PyF × ℕ :=
  if PyF.ltb (PyF.fin 0) res2 then
    let stat := res1 / res2
    (stat, if PyF.ltb (PyF.fin 1) stat then 1 else 0)
  else
    (if PyF.ltb (PyF.fin 0) res1 then PyF.posInf else PyF.fin 0,
     if PyF.ltb (PyF.fin 0) res1 then 1 else 0)

/-- One loop iteration of `two_sample_bootstrap_test`: trial `n` consumes
the `2n`-th random draw sequence for `sample1` and the `(2n+1)`-th for
`sample2` (the fixed sample1-before-sample2 draw order of the source). -/
def trialStep (sample1 sample2 : List ℚ) (stat_func : List ℚ → PyF)
    (rand : ℕ → ℕ → ℕ) (n : ℕ) : Except String (PyF × ℕ) :=
  match resample sample1 sample1.length (rand (2 * n)) with
  | .error e => .error e
  | .ok resample1 =>
    match resample sample2 sample2.length (rand (2 * n + 1)) with
    | .error e => .error e
    | .ok resample2 => .ok (trialPairOf (stat_func resample1) (stat_func resample2))

/-- The `for n in range(num_samples)` loop of `two_sample_bootstrap_test`,
collecting the per-trial `(stat, sign)` pairs in trial order; an exception
raised inside an iteration propagates. -/
def collectTrials (sample1 sample2 : List ℚ) (stat_func : List ℚ → PyF)
    (rand : ℕ → ℕ → ℕ) : ℕ → Except String (List (PyF × ℕ))
  | 0 => .ok []
  | n + 1 =>
    match collectTrials sample1 sample2 stat_func rand n,
          trialStep sample1 sample2 stat_func rand n with
    | .ok l, .ok p => .ok (l ++ [p])
    | .error e, _ => .error e
    | .ok _, .error e => .error e

/-- The pure per-trial pair of trial `n` when both samples are non-empty. -/
def pureTrial (sample1 sample2 : List ℚ) (stat_func : List ℚ → PyF)
    (rand : ℕ → ℕ → ℕ) (n : ℕ) : PyF × ℕ :=
  trialPairOf (stat_func (resampleList sample1 sample1.length (rand (2 * n))))
    (stat_func (resampleList sample2 sample2.length (rand (2 * n + 1))))

/-- Embedding of `two_sample_bootstrap_test(sample1, sample2, stat_func,
num_samples)`: run the trials, then `p_value = sum(resampled_signs) /
len(resampled_signs)` — Python true division, a `ZeroDivisionError` when
the list of signs is empty — and return the p-value together with the
per-trial `(stat, sign)` pairs. -/
def two_sample_bootstrap_test (sample1 sample2 : List ℚ)
    (stat_func : List ℚ → PyF) (rand : ℕ → ℕ → ℕ) (num_samples : ℕ) :
    Except String (ℚ × List (PyF × ℕ)) :=
  match collectTrials sample1 sample2 stat_func rand num_samples with
  | .error e => .error e
  | .ok pairs =>
    if pairs.length = 0 then .error "ZeroDivisionError: division by zero"
    else .ok ((((pairs.map Prod.snd).sum : ℕ) : ℚ) / (pairs.length : ℚ), pairs)

/-! ## Keyness statistic (`src/notebooks/src/keyness.py`)

A 2×2 contingency table of numpy floats is a function
`Fin 2 → Fin 2 → PyF`.  The pandas keyword-frequency tables feeding
`compute_category_totals` and `get_observed_from_row` are
`value_counts`-derived count tables (`fillna(0)` guarantees every entry is
a finite non-negative number), so their entries are modelled as exact
rationals; the contingency tables they produce are injected into `PyF`
where they meet the float pipeline of `compute_log_likelihood_from_observed`. -/

/-- A 2×2 numpy array of floats, indexed as `observed[i, j]`. -/
def TablePyF : Type := Fin 2 → Fin 2 → PyF

/-- A 2×2 numpy array of rational values (a contingency table built from
exact counts). -/
def TableQ : Type := Fin 2 → Fin 2 → ℚ

/-- Injection of an exact-count table into the float table type. -/
def TableQ.toPyF (t : TableQ) : TablePyF := fun i j => PyF.fin (t i j)

/-- Row sum `observed[i, :].sum()`. -/
def rowSum (observed : TablePyF) (i : Fin 2) : PyF := observed i 0 + observed i 1

/-- Column sum `observed[:, j].sum()`. -/
def colSum (observed : TablePyF) (j : Fin 2) : PyF := observed 0 j + observed 1 j

/-- Grand sum `observed.sum()` (numpy sums the flattened array in row-major
order). -/
def tableSum (observed : TablePyF) : PyF :=
  observed 0 0 + observed 0 1 + observed 1 0 + observed 1 1

/-- Embedding of `compute_expected(observed)`: the source builds the 2×2
array whose `(i, j)` entry is
`observed[i, :].sum() * observed[:, j].sum() / observed.sum()`. -/
def compute_expected (observed : TablePyF) : TablePyF :=
  fun i j => rowSum observed i * colSum observed j / tableSum observed

/-- The module-level smoothing constant `_SMALL = 1e-20` (idealised as the
exact rational `10⁻²⁰`). -/
def _SMALL : PyF := PyF.fin (1 / 10 ^ 20)

/-- The cell order of the `for i in [0, 1]: for j in [0, 1]` loop of
`compute_log_likelihood_from_observed`. -/
def cellOrder : List (Fin 2 × Fin 2) := [(0, 0), (0, 1), (1, 0), (1, 1)]

/-- Embedding of `compute_log_likelihood_from_observed(observed)`.  The
transcendental `np.log` is passed in as an explicit function `ln` on the
float model; everything else is computed exactly as in the source:
`sum_likelihood` starts at `0` and accumulates
`observed[i, j] * np.log((observed[i, j] + _SMALL) / (expected[i, j] + _SMALL))`
over the four cells in loop order, and the result is
`(2 * sum_likelihood, 'more' if observed[0, 0] > expected[0, 0] else 'less')`. -/
def compute_log_likelihood_from_observed (ln : PyF → PyF)
    (observed : TablePyF) : PyF × String :=
  let expected := compute_expected observed
  let sum_likelihood := cellOrder.foldl
    (fun acc ij =>
      acc + observed ij.1 ij.2 *
        ln ((observed ij.1 ij.2 + _SMALL) / (expected ij.1 ij.2 + _SMALL)))
    (PyF.fin 0)
  (PyF.fin 2 * sum_likelihood,
   if PyF.ltb (expected 0 0) (observed 0 0) then "more" else "less")

/-- Embedding of `get_complement_from_row(row, source)`:
`row['Total'] - row[source]`.  A pandas row of the keyword-frequency table
is a mapping from column name to its (exact, finite) count. -/
def get_complement_from_row (row : String → ℚ) (source : String) : ℚ :=
  row "Total" - row source

/-- Embedding of `get_observed_from_row(row, source, totals)`: the 2×2
observed table `[[t_target, t_ref], [nt_target, nt_ref]]` where
`t_target = row[source]`, `t_ref = get_complement_from_row(row, source)`,
`nt_target = totals.loc[source].target_freq - t_target` and
`nt_ref = totals.loc[source].ref_freq - t_ref`.  The totals table maps a
category to its `(target_freq, ref_freq)` pair. -/
def get_observed_from_row (row : String → ℚ) (source : String)
    (totals : String → ℚ × ℚ) : TableQ :=
  let t_target := row source
  let t_ref := get_complement_from_row row source
  let nt_target := (totals source).1 - t_target
  let nt_ref := (totals source).2 - t_ref
  fun i j =>
    if i = 0 then (if j = 0 then t_target else t_ref)
    else (if j = 0 then nt_target else nt_ref)

/-- Embedding of `compute_log_likelihood_from_row(row, source, totals)`:
build the observed table for the row, compute `(ll, sign)` with
`compute_log_likelihood_from_observed`, and return the unsigned `ll`
(the signed variant `ll if sign == 'more' else -ll` is commented out in the
source). -/
def compute_log_likelihood_from_row (ln : PyF → PyF) (row : String → ℚ)
    (source : String) (totals : String → ℚ × ℚ) : PyF :=
  let observed := get_observed_from_row row source totals
  let r := compute_log_likelihood_from_observed ln observed.toPyF
  r.1

/-- A keyword×category frequency table as produced by
`compute_keyword_category_freq`: a list of column names (the categories
plus the synthetic `'Total'` column) and a list of keyword rows, each a
mapping from column name to its count. -/
structure FreqTable where
  cols : List String
  rows : List (String → ℚ)

/-- The column sum `keyword_cat_freq[c].sum()` over all keyword rows. -/
def colTotal (ft : FreqTable) (c : String) : ℚ :=
  (ft.rows.map fun r => r c).sum

/-- Embedding of `compute_category_totals(keyword_cat_freq)`: for every
column `c` (the `'Total'` column included), `target_freq` is the column
sum and `ref_freq` is `totals.loc['Total'] - target_freq`. -/
def compute_category_totals (ft : FreqTable) : String → ℚ × ℚ :=
  fun c => (colTotal ft c, colTotal ft "Total" - colTotal ft c)

/-! ## Lemmas about the bootstrap loop -/

/-- The list of per-trial `(stat, sign)` pairs produced by a successful run
of the bootstrap loop. -/
def bootstrapPairs (sample1 sample2 : List ℚ) (stat_func : List ℚ → PyF)
    (rand : ℕ → ℕ → ℕ) (num_samples : ℕ) : List (PyF × ℕ) :=
  (List.range num_samples).map (pureTrial sample1 sample2 stat_func rand)

theorem trialStep_ok (sample1 sample2 : List ℚ) (stat_func : List ℚ → PyF)
    (rand : ℕ → ℕ → ℕ) (n : ℕ) (h1 : sample1 ≠ []) (h2 : sample2 ≠ []) :
    trialStep sample1 sample2 stat_func rand n =
      .ok (pureTrial sample1 sample2 stat_func rand n) := by
  simp [trialStep, resample_ok _ _ _ h1, resample_ok _ _ _ h2, pureTrial]

theorem collectTrials_ok (sample1 sample2 : List ℚ) (stat_func : List ℚ → PyF)
    (rand : ℕ → ℕ → ℕ) (h1 : sample1 ≠ []) (h2 : sample2 ≠ [])
    (num_samples : ℕ) :
    collectTrials sample1 sample2 stat_func rand num_samples =
      .ok (bootstrapPairs sample1 sample2 stat_func rand num_samples) := by
  induction num_samples with
  | zero => simp [collectTrials, bootstrapPairs]
  | succ n ih =>
    rw [collectTrials, ih, trialStep_ok _ _ _ _ _ h1 h2]
    simp [bootstrapPairs, List.range_succ]

theorem bootstrapPairs_length (sample1 sample2 : List ℚ)
    (stat_func : List ℚ → PyF) (rand : ℕ → ℕ → ℕ) (num_samples : ℕ) :
    (bootstrapPairs sample1 sample2 stat_func rand num_samples).length =
      num_samples := by
  simp [bootstrapPairs]

theorem bootstrap_test_ok (sample1 sample2 : List ℚ) (stat_func : List ℚ → PyF)
    (rand : ℕ → ℕ → ℕ) (num_samples : ℕ) (h1 : sample1 ≠ [])
    (h2 : sample2 ≠ []) (hn : 1 ≤ num_samples) :
    two_sample_bootstrap_test sample1 sample2 stat_func rand num_samples =
      .ok (((((bootstrapPairs sample1 sample2 stat_func rand num_samples).map
              Prod.snd).sum : ℕ) : ℚ) / (num_samples : ℚ),
           bootstrapPairs sample1 sample2 stat_func rand num_samples) := by
  rw [two_sample_bootstrap_test, collectTrials_ok _ _ _ _ h1 h2]
  simp [bootstrapPairs_length, Nat.one_le_iff_ne_zero.mp hn]

theorem bootstrapPairs_getD (sample1 sample2 : List ℚ)
    (stat_func : List ℚ → PyF) (rand : ℕ → ℕ → ℕ) (num_samples n : ℕ)
    (hn : n < num_samples) (d : PyF × ℕ) :
    (bootstrapPairs sample1 sample2 stat_func rand num_samples).getD n d =
      pureTrial sample1 sample2 stat_func rand n := by
  rw [List.getD_eq_getElem _ d (by simpa [bootstrapPairs_length] using hn)]
  simp [bootstrapPairs]

theorem trialPairOf_snd_le_one (a b : PyF) : (trialPairOf a b).2 ≤ 1 := by
  unfold trialPairOf
  split <;> dsimp only <;> split <;> simp

theorem bootstrapPairs_signs_le (sample1 sample2 : List ℚ)
    (stat_func : List ℚ → PyF) (rand : ℕ → ℕ → ℕ) (num_samples : ℕ) :
    ((bootstrapPairs sample1 sample2 stat_func rand num_samples).map
        Prod.snd).sum ≤ num_samples := by
  have h := List.sum_le_card_nsmul
    ((bootstrapPairs sample1 sample2 stat_func rand num_samples).map Prod.snd) 1
    (by
      intro x hx
      simp only [bootstrapPairs, List.map_map, List.mem_map, List.mem_range,
        Function.comp_apply] at hx
      obtain ⟨k, _, rfl⟩ := hx
      exact trialPairOf_snd_le_one _ _)
  simpa [bootstrapPairs_length] using h

/-! ## Claims about the bootstrap test -/

/-- C1: in `two_sample_bootstrap_test`, each trial computes its
`(ratio, sign)` pair exactly by the rule: with `v1` and `v2` the statistic
values of the two resamples of trial `n`, if `v2 > 0` then
`ratio = v1 / v2` and `sign = 1` if `ratio > 1.0` else `0`; otherwise
(`v2 ≤ 0`, comparison false) `ratio = +inf` if `v1 > 0.0` else `0.0`, and
`sign = 1` if `v1 > 0.0` else `0`.  This holds for every trial index
`n < num_samples` and every statistic function. -/
theorem two_sample_bootstrap_test_trial_rule (sample1 sample2 : List ℚ)
    (stat_func : List ℚ → PyF) (rand : ℕ → ℕ → ℕ) (num_samples n : ℕ)
    (h1 : sample1 ≠ []) (h2 : sample2 ≠ []) (hn : n < num_samples) :
    ∃ p_value pairs,
      two_sample_bootstrap_test sample1 sample2 stat_func rand num_samples =
        .ok (p_value, pairs) ∧
      pairs.getD n (PyF.nan, 0) =
        (let v1 := stat_func (resampleList sample1 sample1.length (rand (2 * n)))
         let v2 := stat_func (resampleList sample2 sample2.length (rand (2 * n + 1)))
         if PyF.ltb (PyF.fin 0) v2 then
           (v1 / v2, if PyF.ltb (PyF.fin 1) (v1 / v2) then 1 else 0)
         else
           (if PyF.ltb (PyF.fin 0) v1 then PyF.posInf else PyF.fin 0,
            if PyF.ltb (PyF.fin 0) v1 then 1 else 0)) := by
  refine ⟨_, _, bootstrap_test_ok sample1 sample2 stat_func rand num_samples h1 h2
    (Nat.lt_of_le_of_lt (Nat.zero_le n) hn), ?_⟩
  rw [bootstrapPairs_getD _ _ _ _ _ _ hn]
  simp only [pureTrial, trialPairOf]

/-- Witness for C1 at a concrete input: two singleton samples, the sum
statistic, the constant-zero random stream and a single trial. -/
theorem two_sample_bootstrap_test_trial_rule_witness :
    ∃ p_value pairs,
      two_sample_bootstrap_test [1] [2] (fun l => PyF.fin l.sum)
          (fun _ _ => 0) 1 = .ok (p_value, pairs) ∧
      pairs.getD 0 (PyF.nan, 0) =
        (let v1 := (fun l => PyF.fin l.sum)
                     (resampleList [1] (List.length [1]) ((fun _ _ => 0) (2 * 0)))
         let v2 := (fun l => PyF.fin l.sum)
                     (resampleList [2] (List.length [2]) ((fun _ _ => 0) (2 * 0 + 1)))
         if PyF.ltb (PyF.fin 0) v2 then
           (v1 / v2, if PyF.ltb (PyF.fin 1) (v1 / v2) then 1 else 0)
         else
           (if PyF.ltb (PyF.fin 0) v1 then PyF.posInf else PyF.fin 0,
            if PyF.ltb (PyF.fin 0) v1 then 1 else 0)) :=
  two_sample_bootstrap_test_trial_rule [1] [2] (fun l => PyF.fin l.sum)
    (fun _ _ => 0) 1 0 (by simp) (by simp) (by decide)

/-- C3: for non-empty samples, any statistic function and any trial count
`≥ 1`, `two_sample_bootstrap_test` returns a p-value equal to the sum of
the per-trial signs divided by the number of trials, together with the
per-trial `(ratio, sign)` sequence of length exactly `num_samples`, and
the p-value lies in `[0, 1]`. -/
theorem two_sample_bootstrap_test_p_value (sample1 sample2 : List ℚ)
    (stat_func : List ℚ → PyF) (rand : ℕ → ℕ → ℕ) (num_samples : ℕ)
    (h1 : sample1 ≠ []) (h2 : sample2 ≠ []) (hn : 1 ≤ num_samples) :
    ∃ p_value pairs,
      two_sample_bootstrap_test sample1 sample2 stat_func rand num_samples =
        .ok (p_value, pairs) ∧
      pairs.length = num_samples ∧
      p_value = (((pairs.map Prod.snd).sum : ℕ) : ℚ) / (num_samples : ℚ) ∧
      0 ≤ p_value ∧ p_value ≤ 1 := by
  refine ⟨_, _, bootstrap_test_ok sample1 sample2 stat_func rand num_samples h1 h2 hn,
    bootstrapPairs_length _ _ _ _ _, rfl, by positivity, ?_⟩
  rw [div_le_one (by exact_mod_cast Nat.lt_of_lt_of_le Nat.zero_lt_one hn)]
  exact_mod_cast bootstrapPairs_signs_le sample1 sample2 stat_func rand num_samples

/-- Witness for C3 at a concrete input: two singleton samples, the sum
statistic and two trials. -/
theorem two_sample_bootstrap_test_p_value_witness :
    ∃ p_value pairs,
      two_sample_bootstrap_test [1] [1] (fun l => PyF.fin l.sum)
          (fun _ _ => 0) 2 = .ok (p_value, pairs) ∧
      pairs.length = 2 ∧
      p_value = (((pairs.map Prod.snd).sum : ℕ) : ℚ) / ((2 : ℕ) : ℚ) ∧
      0 ≤ p_value ∧ p_value ≤ 1 :=
  two_sample_bootstrap_test_p_value [1] [1] (fun l => PyF.fin l.sum)
    (fun _ _ => 0) 2 (by simp) (by simp) (by decide)

/-- C9: `two_sample_bootstrap_test` raises when zero trials are requested
(the `sum(resampled_signs) / len(resampled_signs)` step divides by zero),
and otherwise — for valid non-empty samples and `num_samples ≥ 1` — never
raises for data-dependent degeneracies: it returns a result in which any
trial whose resampled denominator statistic is not `> 0` records the
encoded pair (`+inf` ratio when the numerator statistic is positive, `0.0`
otherwise, with the corresponding fixed sign) instead of an error. -/
theorem two_sample_bootstrap_test_error_policy (sample1 sample2 : List ℚ)
    (stat_func : List ℚ → PyF) (rand : ℕ → ℕ → ℕ) (num_samples n : ℕ)
    (hn : 1 ≤ num_samples) (h1 : sample1 ≠ []) (h2 : sample2 ≠ []) :
    two_sample_bootstrap_test sample1 sample2 stat_func rand 0 =
      .error "ZeroDivisionError: division by zero" ∧
    ∃ p_value pairs,
      two_sample_bootstrap_test sample1 sample2 stat_func rand num_samples =
        .ok (p_value, pairs) ∧
      (n < num_samples →
        PyF.ltb (PyF.fin 0)
            (stat_func (resampleList sample2 sample2.length (rand (2 * n + 1)))) =
          false →
        pairs.getD n (PyF.nan, 0) =
          (if PyF.ltb (PyF.fin 0)
              (stat_func (resampleList sample1 sample1.length (rand (2 * n)))) then
             PyF.posInf
           else PyF.fin 0,
           if PyF.ltb (PyF.fin 0)
              (stat_func (resampleList sample1 sample1.length (rand (2 * n)))) then
             1
           else 0)) := by
  refine ⟨rfl, _, _,
    bootstrap_test_ok sample1 sample2 stat_func rand num_samples h1 h2 hn,
    fun hlt hfalse => ?_⟩
  rw [bootstrapPairs_getD _ _ _ _ _ _ hlt]
  simp only [pureTrial, trialPairOf, hfalse]
  simp

/-- Witness for C9 at a concrete input: `sample2 = [0]` with the sum
statistic makes every trial's denominator statistic zero, so the single
trial records the encoded `(+inf, 1)` pair while the zero-trials call
raises. -/
theorem two_sample_bootstrap_test_error_policy_witness :
    two_sample_bootstrap_test [1] [0] (fun l => PyF.fin l.sum)
        (fun _ _ => 0) 0 = .error "ZeroDivisionError: division by zero" ∧
    ∃ p_value pairs,
      two_sample_bootstrap_test [1] [0] (fun l => PyF.fin l.sum)
          (fun _ _ => 0) 1 = .ok (p_value, pairs) ∧
      pairs.getD 0 (PyF.nan, 0) = (PyF.posInf, 1) := by
  obtain ⟨herr, p_value, pairs, hok, himp⟩ :=
    two_sample_bootstrap_test_error_policy [1] [0] (fun l => PyF.fin l.sum)
      (fun _ _ => 0) 1 0 (by decide) (by simp) (by simp)
  refine ⟨herr, p_value, pairs, hok, ?_⟩
  rw [himp (by decide) (by simp [resampleList, PyF.ltb])]
  simp [resampleList, PyF.ltb]

/-- C4 counterexample: the claim states that `resample(sample, 0)` returns
an empty sequence for every sample, the empty sample included; but on the
empty sample the `np.random.randint(0, 0, 0)` call validates its bounds
before generating and raises, so `resample([], 0)` is an error, not an
empty sequence. -/
theorem resample_empty_zero_counterexample :
    resample [] 0 (fun _ => 0) = .error "ValueError: low >= high" :=
  resample_error 0 (fun _ => 0)

/-- C4 (amended): `resample(sample, 0)` returns an empty sequence for every
non-empty sample, and `resample` fails with the invalid-argument
`ValueError` exactly when the sample is empty — for every requested
length, length `0` included. -/
theorem resample_zero_length_and_error_iff (sample : List ℚ) (draws : ℕ → ℕ) :
    (sample ≠ [] → resample sample 0 draws = .ok []) ∧
    (∀ resample_length, (∃ e, resample sample resample_length draws = .error e)
      ↔ sample = []) := by
  constructor
  · intro h
    simpa [resampleList] using resample_ok sample 0 draws h
  · intro resample_length
    constructor
    · intro ⟨e, he⟩
      by_contra h
      rw [resample_ok sample resample_length draws h] at he
      exact Except.noConfusion he
    · intro h
      subst h
      exact ⟨_, resample_error resample_length draws⟩

/-- Witness for the amended C4 at concrete inputs: a singleton sample with
length 0 yields the empty resample, and the empty sample with length 3
raises. -/
theorem resample_zero_length_and_error_iff_witness :
    resample [1] 0 (fun _ => 0) = .ok [] ∧
    (∃ e, resample [] 3 (fun _ => 0) = .error e) :=
  ⟨(resample_zero_length_and_error_iff [1] (fun _ => 0)).1 (by simp),
   ((resample_zero_length_and_error_iff [] (fun _ => 0)).2 3).mpr rfl⟩

/-- C7: for every non-empty sample and every requested length,
`resample` succeeds and returns a sequence of exactly `resample_length`
elements, each an element of the sample (each index drawn lies in
`[0, len(sample))`). -/
theorem resample_length_and_membership (sample : List ℚ)
    (resample_length : ℕ) (draws : ℕ → ℕ) (h : sample ≠ []) :
    ∃ l, resample sample resample_length draws = .ok l ∧
      l.length = resample_length ∧ ∀ x ∈ l, x ∈ sample := by
  refine ⟨resampleList sample resample_length draws,
    resample_ok sample resample_length draws h, by simp [resampleList], ?_⟩
  intro x hx
  simp only [resampleList, List.mem_map, List.mem_range] at hx
  obtain ⟨k, _, rfl⟩ := hx
  have hidx : draws k % sample.length < sample.length :=
    Nat.mod_lt _ (List.length_pos.mpr h)
  rw [List.getD_eq_getElem _ _ hidx]
  exact List.getElem_mem hidx

/-- Witness for C7 at a concrete input: resampling 3 elements from `[2, 5]`
with the identity draw stream. -/
theorem resample_length_and_membership_witness :
    ∃ l, resample [2, 5] 3 (fun k => k) = .ok l ∧
      l.length = 3 ∧ ∀ x ∈ l, x ∈ [2, 5] :=
  resample_length_and_membership [2, 5] 3 (fun k => k) (by simp)

/-! ## Lemmas about the float model used by the keyness claims -/

theorem PyF.isFin_iff (x : PyF) : x.isFin = true ↔ ∃ q, x = PyF.fin q := by
  cases x <;> simp [PyF.isFin]

theorem PyF.ltb_fin_fin (a b : ℚ) :
    PyF.ltb (PyF.fin a) (PyF.fin b) = true ↔ a < b := by
  simp [PyF.ltb]

theorem PyF.isFin_div_fin_zero (a : ℚ) :
    ((PyF.fin a) / (PyF.fin 0)).isFin = false := by
  rw [PyF.div_def]
  simp only [PyF.div, ne_eq, not_true_eq_false, if_false]
  split_ifs <;> rfl

/-- The sum of the four cells of an exact-count contingency table. -/
def tableQSum (t : TableQ) : ℚ := t 0 0 + t 0 1 + t 1 0 + t 1 1

/-! ## Claims about the keyness statistic -/

/-- C2: `compute_log_likelihood_from_observed` returns
`score = 2 * Σ_{i,j} observed[i,j] * ln((observed[i,j] + 1e-20) /
(expected[i,j] + 1e-20))` — the four cells accumulated in loop order with
`expected` computed from the observed table's margins — and direction
`'more'` when `observed[0,0] > expected[0,0]`, `'less'` otherwise, an
exact tie included (the strict comparison is false on a tie).  This holds
for every 2×2 table and every logarithm function. -/
theorem compute_log_likelihood_from_observed_formula (ln : PyF → PyF)
    (observed : TablePyF) :
    compute_log_likelihood_from_observed ln observed =
      (PyF.fin 2 *
        (observed 0 0 *
            ln ((observed 0 0 + _SMALL) / (compute_expected observed 0 0 + _SMALL)) +
         observed 0 1 *
            ln ((observed 0 1 + _SMALL) / (compute_expected observed 0 1 + _SMALL)) +
         observed 1 0 *
            ln ((observed 1 0 + _SMALL) / (compute_expected observed 1 0 + _SMALL)) +
         observed 1 1 *
            ln ((observed 1 1 + _SMALL) / (compute_expected observed 1 1 + _SMALL))),
       if PyF.ltb (compute_expected observed 0 0) (observed 0 0) then "more"
       else "less") := by
  simp only [compute_log_likelihood_from_observed, cellOrder, List.foldl_cons,
    List.foldl_nil, PyF.zero_add_pyf]

/-- C5: `compute_expected` maps a 2×2 observed table to the table whose
`(i, j)` cell is `row_sum(i) * col_sum(j) / grand_total`; it is a total
function (numpy division warns rather than raises), and when the grand
total of a finite observed table is zero every produced cell is a NaN or
an infinity rather than a finite value. -/
theorem compute_expected_formula_and_degenerate (observed : TablePyF) :
    (∀ i j, compute_expected observed i j =
      rowSum observed i * colSum observed j / tableSum observed) ∧
    ((∀ i j, (observed i j).isFin = true) →
      tableSum observed = PyF.fin 0 →
      ∀ i j, (compute_expected observed i j).isFin = false) := by
  refine ⟨fun i j => rfl, fun hfin hzero i j => ?_⟩
  obtain ⟨a, ha⟩ := (PyF.isFin_iff _).mp (hfin i 0)
  obtain ⟨b, hb⟩ := (PyF.isFin_iff _).mp (hfin i 1)
  obtain ⟨c, hc⟩ := (PyF.isFin_iff _).mp (hfin 0 j)
  obtain ⟨d, hd⟩ := (PyF.isFin_iff _).mp (hfin 1 j)
  have hcell : compute_expected observed i j =
      PyF.fin ((a + b) * (c + d)) / PyF.fin 0 := by
    rw [compute_expected, rowSum, colSum, hzero, ha, hb, hc, hd,
      PyF.fin_add_fin, PyF.fin_add_fin, PyF.fin_mul_fin]
  rw [hcell]
  exact PyF.isFin_div_fin_zero _

/-- Witness for C5 at a concrete input: a finite table with grand total
zero, for which the `(0, 0)` expected cell is checked non-finite. -/
theorem compute_expected_formula_and_degenerate_witness :
    (compute_expected (fun _ _ => PyF.fin 0) 0 0 =
      rowSum (fun _ _ => PyF.fin 0) 0 * colSum (fun _ _ => PyF.fin 0) 0 /
        tableSum (fun _ _ => PyF.fin 0)) ∧
    (compute_expected (fun _ _ => PyF.fin 0) 0 0).isFin = false :=
  ⟨(compute_expected_formula_and_degenerate (fun _ _ => PyF.fin 0)).1 0 0,
   (compute_expected_formula_and_degenerate (fun _ _ => PyF.fin 0)).2
     (fun _ _ => rfl) (by simp [tableSum, PyF.fin_add_fin]) 0 0⟩

/-- C6: for every finite 2×2 contingency table with all-positive row and
column margins, `compute_expected` preserves the grand total exactly in
the rational model of float arithmetic. -/
theorem compute_expected_preserves_total (observed : TablePyF)
    (hfin : ∀ i j, (observed i j).isFin = true)
    (hr0 : PyF.ltb (PyF.fin 0) (rowSum observed 0) = true)
    (hr1 : PyF.ltb (PyF.fin 0) (rowSum observed 1) = true)
    (_hc0 : PyF.ltb (PyF.fin 0) (colSum observed 0) = true)
    (_hc1 : PyF.ltb (PyF.fin 0) (colSum observed 1) = true) :
    tableSum (compute_expected observed) = tableSum observed := by
  obtain ⟨a, ha⟩ := (PyF.isFin_iff _).mp (hfin 0 0)
  obtain ⟨b, hb⟩ := (PyF.isFin_iff _).mp (hfin 0 1)
  obtain ⟨c, hc⟩ := (PyF.isFin_iff _).mp (hfin 1 0)
  obtain ⟨d, hd⟩ := (PyF.isFin_iff _).mp (hfin 1 1)
  have hT : tableSum observed = PyF.fin (a + b + c + d) := by
    rw [tableSum, ha, hb, hc, hd, PyF.fin_add_fin, PyF.fin_add_fin,
      PyF.fin_add_fin]
  have hr0q : (0 : ℚ) < a + b := by
    have h := hr0
    simp only [rowSum, ha, hb, PyF.fin_add_fin, PyF.ltb_fin_fin] at h
    exact h
  have hr1q : (0 : ℚ) < c + d := by
    have h := hr1
    simp only [rowSum, hc, hd, PyF.fin_add_fin, PyF.ltb_fin_fin] at h
    exact h
  have hne : a + b + c + d ≠ 0 := by
    have hTq : (0 : ℚ) < a + b + c + d := by linarith
    exact hTq.ne'
  rw [hT]
  simp only [tableSum, compute_expected, rowSum, colSum, ha, hb, hc, hd,
    PyF.fin_add_fin, PyF.fin_mul_fin, PyF.fin_div_fin _ _ hne]
  refine congrArg PyF.fin ?_
  field_simp
  ring

/-- A concrete finite contingency table `[[1, 2], [3, 4]]` with
all-positive margins. -/
def exampleTable : TablePyF := fun i j =>
  if i = 0 then (if j = 0 then PyF.fin 1 else PyF.fin 2)
  else (if j = 0 then PyF.fin 3 else PyF.fin 4)

/-- Witness for C6 at the concrete table `[[1, 2], [3, 4]]`. -/
theorem compute_expected_preserves_total_witness :
    tableSum (compute_expected exampleTable) = tableSum exampleTable :=
  compute_expected_preserves_total exampleTable
    (by intro i j; fin_cases i <;> fin_cases j <;> simp [exampleTable, PyF.isFin])
    (by norm_num [rowSum, exampleTable, PyF.fin_add_fin, PyF.ltb])
    (by norm_num [rowSum, exampleTable, PyF.fin_add_fin, PyF.ltb])
    (by norm_num [colSum, exampleTable, PyF.fin_add_fin, PyF.ltb])
    (by norm_num [colSum, exampleTable, PyF.fin_add_fin, PyF.ltb])

/-- C8: `compute_log_likelihood_from_row` returns exactly the first
component — the unsigned log-likelihood score — of
`compute_log_likelihood_from_observed` applied to the observed table built
from the row, for every row, category and totals table; the computed
direction label is discarded and never negates the score (the signed
variant is commented out in the source). -/
theorem compute_log_likelihood_from_row_unsigned (ln : PyF → PyF)
    (row : String → ℚ) (source : String) (totals : String → ℚ × ℚ) :
    compute_log_likelihood_from_row ln row source totals =
      (compute_log_likelihood_from_observed ln
        (get_observed_from_row row source totals).toPyF).1 := rfl

/-- C10: for every keyword row whose `'Total'` entry is the sum of its
per-category entries, every category in the totals table, and totals
produced by `compute_category_totals` from the frequency table, the four
cells of `get_observed_from_row` sum to the frequency table's grand total
`totals.loc['Total'].target_freq` — independent of the keyword row and of
the chosen category. -/
theorem get_observed_from_row_total_invariant (ft : FreqTable)
    (row : String → ℚ) (c : String)
    (_hrow : row "Total" = ((ft.cols.filter fun s => s ≠ "Total").map row).sum)
    (_hc : c ∈ ft.cols) :
    tableQSum (get_observed_from_row row c (compute_category_totals ft)) =
      (compute_category_totals ft "Total").1 := by
  simp [tableQSum, get_observed_from_row, get_complement_from_row,
    compute_category_totals]
  ring

/-- A concrete keyword×category frequency table with categories `A` and
`B`, two keyword rows and the synthetic `Total` column. -/
def exampleFreq : FreqTable where
  cols := ["A", "B", "Total"]
  rows := [fun s => if s = "A" then 1 else if s = "B" then 2 else 3,
           fun s => if s = "A" then 4 else if s = "B" then 0 else 4]

/-- Witness for C10 at a concrete frequency table, row and category. -/
theorem get_observed_from_row_total_invariant_witness :
    tableQSum (get_observed_from_row
        (fun s => if s = "A" then 1 else if s = "B" then 2 else 3) "A"
        (compute_category_totals exampleFreq)) =
      (compute_category_totals exampleFreq "Total").1 :=
  get_observed_from_row_total_invariant exampleFreq
    (fun s => if s = "A" then 1 else if s = "B" then 2 else 3) "A"
    (by simp +decide [exampleFreq, List.filter]; norm_num) (by simp [exampleFreq])
